import Mathlib

/-!
Verification of the process execution engine in
src/backend/core/script_executor.py (class ScriptExecutor).

The embedding translates the five instance dictionaries of the executor into a
record of string-keyed optional tables, and the straight-line transcript of one
call to execute (PTY reader task pushing decoded chunks onto the internal
queue, the engine pulling from that queue with asyncio.wait_for, the finally
block running the cleanup protocol and the state update) into a total function
from the observable behaviour of the child process to the produced event list
and the final executor state.  The behaviour of one child process is described
by the queue-arrival delay of each decoded stdout chunk, the delay of the EOF
sentinel, and the exit code of the process.  A pull from the queue times out
exactly when the delay of the awaited item exceeds the timeout argument that
execute hands to asyncio.wait_for on that pull; the code hands the full,
constant timeout to every pull.  Wall-clock timestamps in the message dicts
carry no program logic and are omitted.
-/

namespace Scriptbook

/-- Tag of an output message dict: the "type" field, one of "stdout", "error"
or "exit". -/
inductive EventType where
  | stdout
  | error
  | exit
  deriving DecidableEq

/-- One output message produced by execute: the "type" and "content" fields of
the Python dict (the "timestamp" field is omitted, see the file comment). -/
structure OutputEvent where
  etype : EventType
  content : String
  deriving DecidableEq

/-- Handle of the spawned child process; only the returncode attribute is read
by the executor (None while the process is still running). -/
structure Proc where
  returncode : Option Int
  deriving DecidableEq

/-- Model of process.terminate() followed by the reap performed in _cleanup: a
still-running process ends with the SIGTERM return code -15, a process that has
already finished keeps its return code. -/
def Proc.terminate (p : Proc) : Proc :=
  match p.returncode with
  | none => ⟨some (-15)⟩
  | some _ => p

/-- Pointwise update of a string-keyed table; models both dict assignment (with
a some value) and del (with none). -/
def update {α : Type} (f : String → Option α) (k : String) (v : Option α) :
    String → Option α :=
  fun x => if x = k then v else f x

/-- The five instance dictionaries of ScriptExecutor.  An asyncio.Queue carries
no content observable across the embedding boundary, so only the presence of a
queue under a key is recorded. -/
structure ExecutorState where
  processes : String → Option Proc
  master_fds : String → Option Nat
  output_queues : String → Option Unit
  script_states : String → Option String
  output_caches : String → Option (List OutputEvent)

/-- A freshly constructed ScriptExecutor: all five dicts are empty. -/
def emptyState : ExecutorState :=
  ⟨fun _ => none, fun _ => none, fun _ => none, fun _ => none, fun _ => none⟩

/-- The list operation inside _add_to_cache: append the new output, then keep
only the most recent 1000 entries (cache[-1000:]). -/
def addToCache (cache : List OutputEvent) (output : OutputEvent) : List OutputEvent :=
  let cache2 := cache ++ [output]
  if cache2.length > 1000 then cache2.drop (cache2.length - 1000) else cache2

/-- Method _add_to_cache: fetch the cache list of script_id, creating an empty
one when absent, and insert the output through addToCache. -/
def ExecutorState.add_to_cache (s : ExecutorState) (script_id : String)
    (output : OutputEvent) : ExecutorState :=
  let cache := (s.output_caches script_id).getD []
  { s with output_caches := update s.output_caches script_id (some (addToCache cache output)) }

/-- Result dict of get_script_status. -/
structure ScriptStatus where
  script_id : String
  status : String
  cached_output : List OutputEvent
  exit_code : Option Int
  deriving DecidableEq

/-- Method get_script_status: None when the identifier was never recorded in
_script_states, otherwise the state string, the cached output (empty when no
cache entry exists) and the returncode of the entry still present in
_processes, if any. -/
def ExecutorState.get_script_status (s : ExecutorState) (script_id : String) :
    Option ScriptStatus :=
  match s.script_states script_id with
  | none => none
  | some st =>
      some { script_id := script_id
             status := st
             cached_output := (s.output_caches script_id).getD []
             exit_code :=
               match s.processes script_id with
               | some p => p.returncode
               | none => none }

/-- Method kill_process: terminate the process if it is still running and drop
its entry, close and drop the master fd, drop the output queue.  The state and
cache dicts are not touched.  The terminate call acts on the handle being
dropped from the table, so it leaves no trace in the state. -/
def ExecutorState.kill_process (s : ExecutorState) (script_id : String) : ExecutorState :=
  let ps := if (s.processes script_id).isSome then update s.processes script_id none
            else s.processes
  let fds := if (s.master_fds script_id).isSome then update s.master_fds script_id none
             else s.master_fds
  let qs := if (s.output_queues script_id).isSome then update s.output_queues script_id none
            else s.output_queues
  { s with processes := ps, master_fds := fds, output_queues := qs }

/-- Method _cleanup: cancel and await the reader and writer tasks (no state
effect in the embedding), close and drop the master fd, drop the output queue,
terminate the process when it is still running and wait for it, and drop the
process entry.  The function returns the updated state together with the
process handle as the generator continues to see it. -/
def ExecutorState.cleanup (s : ExecutorState) (script_id : String)
    (process : Option Proc) : ExecutorState × Option Proc :=
  let fds := if (s.master_fds script_id).isSome then update s.master_fds script_id none
             else s.master_fds
  let qs := if (s.output_queues script_id).isSome then update s.output_queues script_id none
            else s.output_queues
  match process with
  | none => ({ s with master_fds := fds, output_queues := qs }, none)
  | some p =>
      let p2 := if p.returncode.isNone then p.terminate else p
      let ps := if (s.processes script_id).isSome then update s.processes script_id none
                else s.processes
      ({ s with master_fds := fds, output_queues := qs, processes := ps }, some p2)

/-- The error event yielded on timeout. -/
def timeoutErrorEvent (timeout : Nat) : OutputEvent :=
  ⟨EventType.error, "脚本执行超时 (" ++ toString timeout ++ "秒)，进程已终止"⟩

/-- The exit event yielded on the normal completion path. -/
def exitEvent (returncode : Int) : OutputEvent :=
  ⟨EventType.exit, "进程退出，返回码: " ++ toString returncode⟩

/-- Observable behaviour of one child process under the PTY reader task: for
every decoded stdout chunk the delay (seconds) before the reader pushes it onto
the internal queue, then the delay before the EOF sentinel (None) arrives, and
the exit code of the process at EOF. -/
structure Behavior where
  chunks : List (Nat × String)
  eof_delay : Nat
  exit_code : Int

/-- The engine pulling stdout chunks out of the queue through
_wait_for_output_with_timeout: every pull calls asyncio.wait_for with the same
constant timeout, so a pull times out exactly when the delay of its chunk
exceeds that timeout.  Returns the yielded stdout events, whether a timeout
fired during the chunk phase, and the total time the consumer waited (a
timed-out pull waits the full timeout before giving up). -/
def consumeChunks (timeout : Nat) : List (Nat × String) → List OutputEvent × Bool × Nat
  | [] => ([], false, 0)
  | (d, c) :: rest =>
      if d > timeout then ([], true, timeout)
      else
        let r := consumeChunks timeout rest
        (⟨EventType.stdout, c⟩ :: r.1, r.2.1, d + r.2.2)

/-- Outcome of one call to execute: the final executor state, the events the
consumer received, whether the run timed out, the total time the consumer spent
waiting on the queue, the process handle as the generator last saw it, and the
successive values assigned to _script_states for this identifier. -/
structure ExecResult where
  state : ExecutorState
  events : List OutputEvent
  timed_out : Bool
  elapsed : Nat
  process : Option Proc
  states_log : List String

/-- The opening straight-line part of execute: purge any stale cache, state,
process and fd entry of the identifier, create the output queue, allocate the
PTY, spawn the child, store the process and master fd, and set the state to
running.  A stale running process is terminated before its handle is dropped,
which leaves no trace in the state. -/
def startExecution (s : ExecutorState) (script_id : String) : ExecutorState :=
  let caches := if (s.output_caches script_id).isSome then update s.output_caches script_id none
                else s.output_caches
  let states := if (s.script_states script_id).isSome then update s.script_states script_id none
                else s.script_states
  let ps := if (s.processes script_id).isSome then update s.processes script_id none
            else s.processes
  let fds := if (s.master_fds script_id).isSome then update s.master_fds script_id none
             else s.master_fds
  { processes := update ps script_id (some ⟨none⟩)
    master_fds := update fds script_id (some 0)
    output_queues := update s.output_queues script_id (some ())
    script_states := update states script_id (some "running")
    output_caches := caches }

/-- The state-update block at the end of the finally clause of execute: when
the identifier is still in _script_states and the process handle exists with a
known return code, record completed for return code 0 and failed otherwise.
Returns the updated state and the list of state strings assigned. -/
def updateStateOnExit (s : ExecutorState) (script_id : String) (p : Option Proc) :
    ExecutorState × List String :=
  if (s.script_states script_id).isSome then
    match p with
    | some proc =>
        (match proc.returncode with
         | some rc =>
             let st := if rc = 0 then "completed" else "failed"
             ({ s with script_states := update s.script_states script_id (some st) }, [st])
         | none => (s, []))
    | none => (s, [])
  else (s, [])

/-- The timeout branch of execute: terminate the process when it is still
running, yield the timeout error event, then run _cleanup and return without
yielding an exit event and without touching _script_states. -/
def finishTimeout (s : ExecutorState) (script_id : String) (p : Proc)
    (sofar : List OutputEvent) (timeout : Nat) (elapsed : Nat) : ExecResult :=
  let p2 := if p.returncode.isNone then p.terminate else p
  let pe := s.cleanup script_id (some p2)
  { state := pe.1
    events := sofar ++ [timeoutErrorEvent timeout]
    timed_out := true
    elapsed := elapsed
    process := pe.2
    states_log := ["running"] }

/-- The normal-completion tail of execute: the EOF sentinel was consumed, the
process has exited with the behaviour exit code, the finally clause runs
_cleanup, performs the state update and yields the exit event built from the
return code (defaulting to 0 when unavailable). -/
def finishNormal (s : ExecutorState) (script_id : String) (exit_code : Int)
    (sofar : List OutputEvent) (elapsed : Nat) : ExecResult :=
  let pe := s.cleanup script_id (some ⟨some exit_code⟩)
  let su := updateStateOnExit pe.1 script_id pe.2
  let rc := match pe.2 with
    | some p => p.returncode.getD 0
    | none => 0
  { state := su.1
    events := sofar ++ (match pe.2 with | some _ => [exitEvent rc] | none => [])
    timed_out := false
    elapsed := elapsed
    process := pe.2
    states_log := "running" :: su.2 }

/-- Method execute on one child behaviour, uninterfered by other calls: start
the execution, let the engine pull the stdout chunks (each pull with the full
constant timeout), mirror every pulled chunk into the cache exactly as the
reader task does, and finish on the timeout branch when a pull timed out
(either on a chunk or on the EOF sentinel) and on the normal branch
otherwise.  A run that times out is the hang scenario: the child has not
closed the PTY yet, so the handle passed to the timeout branch is still
running and gets terminated there. -/
def ExecutorState.execute (s : ExecutorState) (script_id : String) (b : Behavior)
    (timeout : Nat) : ExecResult :=
  let s1 := startExecution s script_id
  let cc := consumeChunks timeout b.chunks
  let s2 := cc.1.foldl (fun st e => st.add_to_cache script_id e) s1
  if cc.2.1 then finishTimeout s2 script_id ⟨none⟩ cc.1 timeout cc.2.2
  else if b.eof_delay > timeout then
    finishTimeout s2 script_id ⟨none⟩ cc.1 timeout (cc.2.2 + timeout)
  else finishNormal s2 script_id b.exit_code cc.1 (cc.2.2 + b.eof_delay)

/-- Method execute when the consuming task is cancelled after receiving k
events while the child is still running: CancelledError is raised at the queue
pull inside the generator, is caught by no except clause of execute, so only
the finally clause runs with timed_out still False: _cleanup terminates the
still-running child and drops its handles, then the state-update block records
failed (the reaped return code -15 is nonzero).  The exit event yielded after
that inside the finally clause never reaches the cancelled consumer, so the
received events are exactly the k stdout chunks. -/
def ExecutorState.executeCancelled (s : ExecutorState) (script_id : String)
    (b : Behavior) (timeout : Nat) (k : Nat) : ExecResult :=
  let s1 := startExecution s script_id
  let delivered := (b.chunks.take k).map (fun dc => OutputEvent.mk EventType.stdout dc.2)
  let s2 := delivered.foldl (fun st e => st.add_to_cache script_id e) s1
  let pe := s2.cleanup script_id (some ⟨none⟩)
  let su := updateStateOnExit pe.1 script_id pe.2
  { state := su.1
    events := delivered
    timed_out := false
    elapsed := 0
    process := pe.2
    states_log := "running" :: su.2 }

/-! Helper lemmas about the table operations. -/

@[simp]
theorem update_self {α : Type} (f : String → Option α) (k : String) (v : Option α) :
    update f k v k = v := by
  simp [update]

theorem isSome_false_eq_none {α : Type} {o : Option α} (h : ¬ o.isSome = true) : o = none :=
  Option.not_isSome_iff_eq_none.mp h

/-- Reading the key of a guarded deletion always gives none: this is the shape
shared by every del wrapped in a containment check in the source. -/
theorem purge_at_key {α : Type} (f : String → Option α) (k : String) :
    (if (f k).isSome then update f k none else f) k = none := by
  by_cases h : (f k).isSome
  · simp [h]
  · simp [h, isSome_false_eq_none h]

/-- A guarded deletion done a second time on its own result changes nothing:
the containment check fails on the second pass. -/
theorem purge_idem {α : Type} (f : String → Option α) (k : String) :
    (if ((if (f k).isSome then update f k none else f) k).isSome
     then update (if (f k).isSome then update f k none else f) k none
     else (if (f k).isSome then update f k none else f))
      = (if (f k).isSome then update f k none else f) := by
  rw [purge_at_key f k]
  simp

theorem add_to_cache_script_states (s : ExecutorState) (id : String) (e : OutputEvent) :
    (s.add_to_cache id e).script_states = s.script_states := rfl

theorem add_to_cache_processes (s : ExecutorState) (id : String) (e : OutputEvent) :
    (s.add_to_cache id e).processes = s.processes := rfl

theorem add_to_cache_caches_self (s : ExecutorState) (id : String) (e : OutputEvent) :
    (s.add_to_cache id e).output_caches id
      = some (addToCache ((s.output_caches id).getD []) e) := by
  simp [ExecutorState.add_to_cache]

theorem foldl_cache_script_states (l : List OutputEvent) (s : ExecutorState) (id : String) :
    (l.foldl (fun st e => st.add_to_cache id e) s).script_states = s.script_states := by
  induction l generalizing s with
  | nil => rfl
  | cons hd tl ih => rw [List.foldl_cons, ih]; rfl

theorem foldl_cache_processes (l : List OutputEvent) (s : ExecutorState) (id : String) :
    (l.foldl (fun st e => st.add_to_cache id e) s).processes = s.processes := by
  induction l generalizing s with
  | nil => rfl
  | cons hd tl ih => rw [List.foldl_cons, ih]; rfl

theorem foldl_cache_caches (l : List OutputEvent) (s : ExecutorState) (id : String) :
    ((l.foldl (fun st e => st.add_to_cache id e) s).output_caches id).getD []
      = l.foldl addToCache ((s.output_caches id).getD []) := by
  induction l generalizing s with
  | nil => rfl
  | cons hd tl ih =>
      rw [List.foldl_cons, List.foldl_cons, ih]
      rw [add_to_cache_caches_self, Option.getD_some]

theorem cleanup_fst_script_states (s : ExecutorState) (id : String) (p : Option Proc) :
    (s.cleanup id p).1.script_states = s.script_states := by
  cases p <;> rfl

theorem cleanup_fst_output_caches (s : ExecutorState) (id : String) (p : Option Proc) :
    (s.cleanup id p).1.output_caches = s.output_caches := by
  cases p <;> rfl

theorem cleanup_fst_master_fds_self (s : ExecutorState) (id : String) (p : Option Proc) :
    (s.cleanup id p).1.master_fds id = none := by
  cases p <;> exact purge_at_key s.master_fds id

theorem cleanup_fst_output_queues_self (s : ExecutorState) (id : String) (p : Option Proc) :
    (s.cleanup id p).1.output_queues id = none := by
  cases p <;> exact purge_at_key s.output_queues id

theorem cleanup_fst_processes_self_of_some (s : ExecutorState) (id : String) (p : Proc) :
    (s.cleanup id (some p)).1.processes id = none :=
  purge_at_key s.processes id

theorem cleanup_snd_of_some (s : ExecutorState) (id : String) (p : Proc) :
    (s.cleanup id (some p)).2 = some (if p.returncode.isNone then p.terminate else p) := rfl

theorem cleanup_snd_done (s : ExecutorState) (id : String) (c : Int) :
    (s.cleanup id (some ⟨some c⟩)).2 = some ⟨some c⟩ := rfl

theorem cleanup_snd_running (s : ExecutorState) (id : String) :
    (s.cleanup id (some ⟨none⟩)).2 = some ⟨some (-15)⟩ := rfl

theorem updateStateOnExit_of_some (s : ExecutorState) (id : String) (rc : Int)
    (h : (s.script_states id).isSome = true) :
    updateStateOnExit s id (some ⟨some rc⟩) =
      ({ s with script_states :=
          update s.script_states id (some (if rc = 0 then "completed" else "failed")) },
        [if rc = 0 then "completed" else "failed"]) := by
  simp [updateStateOnExit, h]

theorem updateStateOnExit_fst_output_caches (s : ExecutorState) (id : String)
    (p : Option Proc) :
    (updateStateOnExit s id p).1.output_caches = s.output_caches := by
  unfold updateStateOnExit
  split
  · rcases p with _ | ⟨_ | rc⟩ <;> rfl
  · rfl

theorem updateStateOnExit_fst_processes (s : ExecutorState) (id : String)
    (p : Option Proc) :
    (updateStateOnExit s id p).1.processes = s.processes := by
  unfold updateStateOnExit
  split
  · rcases p with _ | ⟨_ | rc⟩ <;> rfl
  · rfl

theorem startExecution_script_states_self (s : ExecutorState) (id : String) :
    (startExecution s id).script_states id = some "running" := by
  simp [startExecution]

theorem startExecution_processes_self (s : ExecutorState) (id : String) :
    (startExecution s id).processes id = some ⟨none⟩ := by
  simp [startExecution]

theorem startExecution_output_caches_self (s : ExecutorState) (id : String) :
    (startExecution s id).output_caches id = none := by
  simp only [startExecution]
  exact purge_at_key s.output_caches id

/-! Branch-level lemmas about the two exits of execute. -/

theorem finishTimeout_fields (s : ExecutorState) (id : String) (sofar : List OutputEvent)
    (t el : Nat) :
    (finishTimeout s id ⟨none⟩ sofar t el).timed_out = true ∧
    (finishTimeout s id ⟨none⟩ sofar t el).events = sofar ++ [timeoutErrorEvent t] ∧
    (finishTimeout s id ⟨none⟩ sofar t el).states_log = ["running"] ∧
    (finishTimeout s id ⟨none⟩ sofar t el).process = some ⟨some (-15)⟩ ∧
    (finishTimeout s id ⟨none⟩ sofar t el).elapsed = el ∧
    (finishTimeout s id ⟨none⟩ sofar t el).state.script_states = s.script_states ∧
    (finishTimeout s id ⟨none⟩ sofar t el).state.output_caches = s.output_caches ∧
    (finishTimeout s id ⟨none⟩ sofar t el).state.processes id = none := by
  refine ⟨rfl, rfl, rfl, rfl, rfl, rfl, rfl, ?_⟩
  show (s.cleanup id (some (⟨some (-15)⟩ : Proc))).1.processes id = none
  exact cleanup_fst_processes_self_of_some s id _

theorem finishNormal_fields (s : ExecutorState) (id : String) (ec : Int)
    (sofar : List OutputEvent) (el : Nat) (h : (s.script_states id).isSome = true) :
    (finishNormal s id ec sofar el).timed_out = false ∧
    (finishNormal s id ec sofar el).events = sofar ++ [exitEvent ec] ∧
    (finishNormal s id ec sofar el).process = some ⟨some ec⟩ ∧
    (finishNormal s id ec sofar el).elapsed = el ∧
    (finishNormal s id ec sofar el).states_log =
      ["running", if ec = 0 then "completed" else "failed"] ∧
    (finishNormal s id ec sofar el).state.script_states id =
      some (if ec = 0 then "completed" else "failed") ∧
    (finishNormal s id ec sofar el).state.output_caches = s.output_caches ∧
    (finishNormal s id ec sofar el).state.processes id = none := by
  have hcs : (((s.cleanup id (some ⟨some ec⟩)).1).script_states id).isSome = true := by
    rw [cleanup_fst_script_states]; exact h
  have hu := updateStateOnExit_of_some ((s.cleanup id (some ⟨some ec⟩)).1) id ec hcs
  refine ⟨rfl, rfl, rfl, rfl, ?_, ?_, ?_, ?_⟩
  · show "running" :: (updateStateOnExit ((s.cleanup id (some ⟨some ec⟩)).1) id
        ((s.cleanup id (some ⟨some ec⟩)).2)).2 = _
    rw [cleanup_snd_done, hu]
  · show (updateStateOnExit ((s.cleanup id (some ⟨some ec⟩)).1) id
        ((s.cleanup id (some ⟨some ec⟩)).2)).1.script_states id = _
    rw [cleanup_snd_done, hu]
    exact update_self _ _ _
  · show (updateStateOnExit ((s.cleanup id (some ⟨some ec⟩)).1) id
        ((s.cleanup id (some ⟨some ec⟩)).2)).1.output_caches = _
    rw [updateStateOnExit_fst_output_caches, cleanup_fst_output_caches]
  · show (updateStateOnExit ((s.cleanup id (some ⟨some ec⟩)).1) id
        ((s.cleanup id (some ⟨some ec⟩)).2)).1.processes id = none
    rw [updateStateOnExit_fst_processes]
    exact cleanup_fst_processes_self_of_some s id _

theorem consumeChunks_stdout (t : Nat) (l : List (Nat × String)) :
    ∀ e ∈ (consumeChunks t l).1, e.etype = EventType.stdout := by
  induction l with
  | nil => intro e he; simp [consumeChunks] at he
  | cons hd tl ih =>
      intro e he
      obtain ⟨d, c⟩ := hd
      by_cases h : d > t
      · simp [consumeChunks, h] at he
      · simp only [consumeChunks, if_neg h] at he
        rcases List.mem_cons.mp he with h3 | h3
        · rw [h3]
        · exact ih e h3

/-- Master description of one execute run: the consumer receives a list of
stdout events followed by exactly one terminal event; the cache holds exactly
the received stdout events pushed through addToCache; on timeout the terminal
event is the timeout error, the recorded state stays running and the process
was terminated with the SIGTERM code; otherwise the terminal event is the exit
event, the recorded state becomes completed or failed by the exit code, and
the state log shows the single forward transition. -/
theorem execute_spec (s : ExecutorState) (id : String) (b : Behavior) (t : Nat) :
    ∃ pre : List OutputEvent,
      (∀ e ∈ pre, e.etype = EventType.stdout) ∧
      ((s.execute id b t).state.output_caches id).getD [] = pre.foldl addToCache [] ∧
      (s.execute id b t).state.processes id = none ∧
      (((s.execute id b t).timed_out = true ∧
          (s.execute id b t).events = pre ++ [timeoutErrorEvent t] ∧
          (s.execute id b t).state.script_states id = some "running" ∧
          (s.execute id b t).states_log = ["running"] ∧
          (s.execute id b t).process = some ⟨some (-15)⟩) ∨
        ((s.execute id b t).timed_out = false ∧
          (s.execute id b t).events = pre ++ [exitEvent b.exit_code] ∧
          (s.execute id b t).state.script_states id =
            some (if b.exit_code = 0 then "completed" else "failed") ∧
          (s.execute id b t).states_log =
            ["running", if b.exit_code = 0 then "completed" else "failed"] ∧
          (s.execute id b t).process = some ⟨some b.exit_code⟩)) := by
  refine ⟨(consumeChunks t b.chunks).1, consumeChunks_stdout t b.chunks, ?_⟩
  set cc := consumeChunks t b.chunks with hcc
  set s2 := cc.1.foldl (fun st e => st.add_to_cache id e) (startExecution s id) with hs2
  have hs2cache : (s2.output_caches id).getD [] = cc.1.foldl addToCache [] := by
    rw [hs2, foldl_cache_caches, startExecution_output_caches_self]
    rfl
  have hs2states : s2.script_states id = some "running" := by
    rw [hs2, foldl_cache_script_states, startExecution_script_states_self]
  by_cases h1 : cc.2.1 = true
  · have hx : s.execute id b t = finishTimeout s2 id ⟨none⟩ cc.1 t cc.2.2 := by
      simp only [ExecutorState.execute, ← hcc, ← hs2, h1, if_true]
    obtain ⟨f1, f2, f3, f4, f5, f6, f7, f8⟩ := finishTimeout_fields s2 id cc.1 t cc.2.2
    refine ⟨?_, ?_, Or.inl ⟨?_, ?_, ?_, ?_, ?_⟩⟩
    · rw [hx, f7]; exact hs2cache
    · rw [hx]; exact f8
    · rw [hx]; exact f1
    · rw [hx]; exact f2
    · rw [hx, f6]; exact hs2states
    · rw [hx]; exact f3
    · rw [hx]; exact f4
  · by_cases h2 : b.eof_delay > t
    · have hx : s.execute id b t = finishTimeout s2 id ⟨none⟩ cc.1 t (cc.2.2 + t) := by
        simp only [ExecutorState.execute, ← hcc, ← hs2, h1, h2, Bool.false_eq_true,
          if_false, if_true, decide_eq_true_eq, if_pos]
      obtain ⟨f1, f2, f3, f4, f5, f6, f7, f8⟩ := finishTimeout_fields s2 id cc.1 t (cc.2.2 + t)
      refine ⟨?_, ?_, Or.inl ⟨?_, ?_, ?_, ?_, ?_⟩⟩
      · rw [hx, f7]; exact hs2cache
      · rw [hx]; exact f8
      · rw [hx]; exact f1
      · rw [hx]; exact f2
      · rw [hx, f6]; exact hs2states
      · rw [hx]; exact f3
      · rw [hx]; exact f4
    · have hx : s.execute id b t = finishNormal s2 id b.exit_code cc.1 (cc.2.2 + b.eof_delay) := by
        simp only [ExecutorState.execute, ← hcc, ← hs2, h1, h2, Bool.false_eq_true,
          if_false]
      have hrun : (s2.script_states id).isSome = true := by rw [hs2states]; rfl
      obtain ⟨f1, f2, f3, f4, f5, f6, f7, f8⟩ :=
        finishNormal_fields s2 id b.exit_code cc.1 (cc.2.2 + b.eof_delay) hrun
      refine ⟨?_, ?_, Or.inr ⟨?_, ?_, ?_, ?_, ?_⟩⟩
      · rw [hx, f7]; exact hs2cache
      · rw [hx]; exact f8
      · rw [hx]; exact f1
      · rw [hx]; exact f2
      · rw [hx]; exact f6
      · rw [hx]; exact f5
      · rw [hx]; exact f3

/-- Waiting-time accounting of the pull loop: when the loop ends without a
timeout the consumer waited at most one full timeout per received event; when a
pull timed out, one further full timeout was spent on the failed pull. -/
theorem consumeChunks_elapsed (t : Nat) (l : List (Nat × String)) :
    ((consumeChunks t l).2.1 = true →
      (consumeChunks t l).2.2 ≤ (consumeChunks t l).1.length * t + t) ∧
    ((consumeChunks t l).2.1 = false →
      (consumeChunks t l).2.2 ≤ (consumeChunks t l).1.length * t) := by
  induction l with
  | nil =>
      refine ⟨fun h => ?_, fun _ => ?_⟩
      · simp [consumeChunks] at h
      · simp [consumeChunks]
  | cons hd tl ih =>
      obtain ⟨d, c⟩ := hd
      by_cases h : d > t
      · refine ⟨fun _ => ?_, fun hf => ?_⟩
        · simp only [consumeChunks, if_pos h, List.length_nil, Nat.zero_mul]
          omega
        · simp only [consumeChunks, if_pos h] at hf
          simp at hf
      · have hd1 : d ≤ t := Nat.le_of_not_lt h
        refine ⟨fun ht2 => ?_, fun hf => ?_⟩
        · simp only [consumeChunks, if_neg h] at ht2 ⊢
          have hih := ih.1 ht2
          simp only [List.length_cons, Nat.succ_mul]
          omega
        · simp only [consumeChunks, if_neg h] at hf ⊢
          have hih := ih.2 hf
          simp only [List.length_cons, Nat.succ_mul]
          omega

/-- Folding addToCache over any insertion sequence from the empty cache keeps
exactly the most recent 1000 entries in insertion order. -/
theorem foldl_addToCache_eq_drop (l : List OutputEvent) :
    l.foldl addToCache [] = l.drop (l.length - 1000) := by
  induction l using List.reverseRecOn with
  | nil => rfl
  | append_singleton l a ih =>
      rw [List.foldl_append, List.foldl_cons, List.foldl_nil, ih]
      by_cases h : l.length < 1000
      · have h0 : l.length - 1000 = 0 := by omega
        have h1 : (l ++ [a]).length - 1000 = 0 := by
          simp only [List.length_append, List.length_cons, List.length_nil]
          omega
        rw [h0, List.drop_zero, h1, List.drop_zero]
        unfold addToCache
        rw [if_neg]
        simp only [List.length_append, List.length_cons, List.length_nil]
        omega
      · have hge : 1000 ≤ l.length := by omega
        have hlenprev : (l.drop (l.length - 1000)).length = 1000 := by
          rw [List.length_drop]; omega
        unfold addToCache
        rw [if_pos]
        · have hc1 : (l.drop (l.length - 1000) ++ [a]).length - 1000 = 1 := by
            simp only [List.length_append, hlenprev, List.length_cons, List.length_nil]
          rw [hc1]
          rw [List.drop_append_of_le_length (by omega : 1 ≤ (l.drop (l.length - 1000)).length)]
          rw [List.drop_drop]
          have h2 : (l ++ [a]).length - 1000 = l.length - 1000 + 1 := by
            simp only [List.length_append, List.length_cons, List.length_nil]
            omega
          rw [h2]
          rw [List.drop_append_of_le_length (by omega : l.length - 1000 + 1 ≤ l.length)]
        · simp only [List.length_append, hlenprev, List.length_cons, List.length_nil]
          omega

/-- Fields of one executeCancelled run: the still-running child is terminated
by the cleanup protocol, its handles are dropped, and the state table keeps the
identifier, now recorded as failed. -/
theorem executeCancelled_fields (s : ExecutorState) (id : String) (b : Behavior)
    (t k : Nat) :
    (s.executeCancelled id b t k).process = some ⟨some (-15)⟩ ∧
    (s.executeCancelled id b t k).state.processes id = none ∧
    (s.executeCancelled id b t k).state.master_fds id = none ∧
    (s.executeCancelled id b t k).state.output_queues id = none ∧
    (s.executeCancelled id b t k).state.script_states id = some "failed" ∧
    (s.executeCancelled id b t k).states_log = ["running", "failed"] ∧
    (s.executeCancelled id b t k).events =
      (b.chunks.take k).map (fun dc => OutputEvent.mk EventType.stdout dc.2) := by
  set s2 := ((b.chunks.take k).map
      (fun dc => OutputEvent.mk EventType.stdout dc.2)).foldl
      (fun st e => st.add_to_cache id e) (startExecution s id) with hs2
  have hs2states : s2.script_states id = some "running" := by
    rw [hs2, foldl_cache_script_states, startExecution_script_states_self]
  have hcs : (((s2.cleanup id (some ⟨none⟩)).1).script_states id).isSome = true := by
    rw [cleanup_fst_script_states, hs2states]; rfl
  have hsnd : (s2.cleanup id (some ⟨none⟩)).2 = some ⟨some (-15)⟩ :=
    cleanup_snd_running s2 id
  have hu := updateStateOnExit_of_some ((s2.cleanup id (some ⟨none⟩)).1) id (-15) hcs
  have hne : ((-15 : Int) = 0) = False := by simp
  refine ⟨?_, ?_, ?_, ?_, ?_, ?_, rfl⟩
  · show (s2.cleanup id (some ⟨none⟩)).2 = some ⟨some (-15)⟩
    exact hsnd
  · show (updateStateOnExit ((s2.cleanup id (some ⟨none⟩)).1) id
        ((s2.cleanup id (some ⟨none⟩)).2)).1.processes id = none
    rw [updateStateOnExit_fst_processes]
    exact cleanup_fst_processes_self_of_some s2 id _
  · show (updateStateOnExit ((s2.cleanup id (some ⟨none⟩)).1) id
        ((s2.cleanup id (some ⟨none⟩)).2)).1.master_fds id = none
    rw [hsnd, hu]
    simp only [hne, if_false]
    exact cleanup_fst_master_fds_self s2 id _
  · show (updateStateOnExit ((s2.cleanup id (some ⟨none⟩)).1) id
        ((s2.cleanup id (some ⟨none⟩)).2)).1.output_queues id = none
    rw [hsnd, hu]
    simp only [hne, if_false]
    exact cleanup_fst_output_queues_self s2 id _
  · show (updateStateOnExit ((s2.cleanup id (some ⟨none⟩)).1) id
        ((s2.cleanup id (some ⟨none⟩)).2)).1.script_states id = some "failed"
    rw [hsnd, hu]
    simp only [hne, if_false]
    exact update_self _ _ _
  · show "running" :: (updateStateOnExit ((s2.cleanup id (some ⟨none⟩)).1) id
        ((s2.cleanup id (some ⟨none⟩)).2)).2 = ["running", "failed"]
    rw [hsnd, hu]
    simp only [hne, if_false]

/-! Claim theorems. -/

/-- Claim C1: a timed-out execution ends its stream with the timeout error
event as the final event and never produces an exit event; an execution that
completes normally produces exactly one exit event and no timeout error
event. -/
theorem timeout_exit_exclusivity (s : ExecutorState) (id : String) (b : Behavior) (t : Nat) :
    ((s.execute id b t).timed_out = true →
      (s.execute id b t).events.getLast? = some (timeoutErrorEvent t) ∧
      (s.execute id b t).events.filter (fun e => decide (e.etype = EventType.exit)) = []) ∧
    ((s.execute id b t).timed_out = false →
      ((s.execute id b t).events.filter (fun e => decide (e.etype = EventType.exit))).length = 1 ∧
      (s.execute id b t).events.filter (fun e => decide (e.etype = EventType.error)) = []) := by
  obtain ⟨pre, hstd, _, _, hcase⟩ := execute_spec s id b t
  have hp1 : pre.filter (fun e => decide (e.etype = EventType.exit)) = [] := by
    rw [List.filter_eq_nil_iff]
    intro a ha
    simp [hstd a ha]
  have hp2 : pre.filter (fun e => decide (e.etype = EventType.error)) = [] := by
    rw [List.filter_eq_nil_iff]
    intro a ha
    simp [hstd a ha]
  rcases hcase with ⟨hto, hev, _, _, _⟩ | ⟨hto, hev, _, _, _⟩
  · refine ⟨fun _ => ?_, fun hf => ?_⟩
    · rw [hev]
      refine ⟨List.getLast?_concat pre, ?_⟩
      rw [List.filter_append, hp1]
      simp [timeoutErrorEvent]
    · rw [hto] at hf
      exact Bool.noConfusion hf
  · refine ⟨fun hf => ?_, fun _ => ?_⟩
    · rw [hto] at hf
      exact Bool.noConfusion hf
    · rw [hev, List.filter_append, List.filter_append, hp1, hp2]
      refine ⟨?_, ?_⟩ <;> simp [exitEvent]

/-- Witness for C1: a concrete run that times out waiting for EOF ends with
the timeout error event. -/
theorem timeout_exit_exclusivity_witness :
    (emptyState.execute "w1" ⟨[], 7, 0⟩ 3).timed_out = true ∧
    (emptyState.execute "w1" ⟨[], 7, 0⟩ 3).events.getLast? = some (timeoutErrorEvent 3) :=
  ⟨by decide, ((timeout_exit_exclusivity emptyState "w1" ⟨[], 7, 0⟩ 3).1 (by decide)).1⟩

/-- Counterexample to claim C2: with a 5 second timeout, a child delivering
two chunks after 5 seconds of queue waiting each is consumed without any
timeout firing, yet the consumer waited 10 seconds in total: the per-pull
timeout handed to asyncio.wait_for is the full constant timeout on every pull,
not the remaining budget. -/
theorem per_pull_budget_counterexample :
    (emptyState.execute "c2" ⟨[(5, "a"), (5, "b")], 0, 0⟩ 5).timed_out = false ∧
    (emptyState.execute "c2" ⟨[(5, "a"), (5, "b")], 0, 0⟩ 5).elapsed = 10 ∧
    ¬ (emptyState.execute "c2" ⟨[(5, "a"), (5, "b")], 0, 0⟩ 5).elapsed ≤ 5 := by
  decide

/-- Claim C2 (amended): every pull from the internal queue waits at most the
full timeoutSeconds, and the budget resets on every pull, so the total waiting
time of a consumer is bounded by one full timeout per event of the stream,
not by a single timeoutSeconds budget. -/
theorem per_pull_budget_bound (s : ExecutorState) (id : String) (b : Behavior) (t : Nat) :
    (s.execute id b t).elapsed ≤ (s.execute id b t).events.length * t := by
  set cc := consumeChunks t b.chunks with hcc
  set s2 := cc.1.foldl (fun st e => st.add_to_cache id e) (startExecution s id) with hs2
  have hel := consumeChunks_elapsed t b.chunks
  rw [← hcc] at hel
  by_cases h1 : cc.2.1 = true
  · have hx : s.execute id b t = finishTimeout s2 id ⟨none⟩ cc.1 t cc.2.2 := by
      simp only [ExecutorState.execute, ← hcc, ← hs2, h1, if_true]
    rw [hx]
    show cc.2.2 ≤ (cc.1 ++ [timeoutErrorEvent t]).length * t
    have he := hel.1 h1
    rw [List.length_append]
    simp only [List.length_cons, List.length_nil, Nat.succ_mul]
    omega
  · have h1f : cc.2.1 = false := Bool.eq_false_iff.mpr h1
    have he := hel.2 h1f
    by_cases h2 : b.eof_delay > t
    · have hx : s.execute id b t = finishTimeout s2 id ⟨none⟩ cc.1 t (cc.2.2 + t) := by
        simp only [ExecutorState.execute, ← hcc, ← hs2, h1f, Bool.false_eq_true, if_false,
          h2, if_true]
      rw [hx]
      show cc.2.2 + t ≤ (cc.1 ++ [timeoutErrorEvent t]).length * t
      rw [List.length_append]
      simp only [List.length_cons, List.length_nil, Nat.succ_mul]
      omega
    · have hx : s.execute id b t = finishNormal s2 id b.exit_code cc.1 (cc.2.2 + b.eof_delay) := by
        simp only [ExecutorState.execute, ← hcc, ← hs2, h1f, Bool.false_eq_true, if_false, h2]
      rw [hx]
      show cc.2.2 + b.eof_delay ≤
        (cc.1 ++ (match (s2.cleanup id (some ⟨some b.exit_code⟩)).2 with
          | some p => [exitEvent (p.returncode.getD 0)] | none => [])).length * t
      rw [cleanup_snd_done]
      have hde : b.eof_delay ≤ t := Nat.le_of_not_lt h2
      rw [List.length_append]
      simp only [List.length_cons, List.length_nil, Nat.succ_mul]
      omega

/-- Counterexample to claim C3: a timed-out run has its process forcibly
terminated with the nonzero SIGTERM code, yet the recorded lifecycle state is
left at running rather than moving to failed, because the timeout branch
returns before the state-update step. -/
theorem state_failed_iff_counterexample :
    (emptyState.execute "c3" ⟨[], 9, 0⟩ 4).process = some ⟨some (-15)⟩ ∧
    (emptyState.execute "c3" ⟨[], 9, 0⟩ 4).state.script_states "c3" = some "running" ∧
    ¬ (emptyState.execute "c3" ⟨[], 9, 0⟩ 4).state.script_states "c3" = some "failed" := by
  decide

/-- Claim C3 (amended): the recorded state only moves forward, from running to
at most one terminal value; for runs that do not time out, failed is recorded
iff the exit code is nonzero; a timed-out run keeps its recorded state at
running even though its process was terminated. -/
theorem state_transition_monotone (s : ExecutorState) (id : String) (b : Behavior) (t : Nat) :
    ((s.execute id b t).states_log = ["running"] ∨
      (s.execute id b t).states_log = ["running", "completed"] ∨
      (s.execute id b t).states_log = ["running", "failed"]) ∧
    ((s.execute id b t).timed_out = false →
      ((s.execute id b t).state.script_states id = some "failed" ↔ ¬ b.exit_code = 0)) ∧
    ((s.execute id b t).timed_out = true →
      (s.execute id b t).state.script_states id = some "running") := by
  obtain ⟨pre, _, _, _, hcase⟩ := execute_spec s id b t
  rcases hcase with ⟨hto, _, hst, hlog, _⟩ | ⟨hto, _, hst, hlog, _⟩
  · refine ⟨Or.inl hlog, fun hf => ?_, fun _ => hst⟩
    rw [hto] at hf
    exact Bool.noConfusion hf
  · refine ⟨?_, fun _ => ?_, fun hf => ?_⟩
    · by_cases hec : b.exit_code = 0
      · right; left; rw [hlog, if_pos hec]
      · right; right; rw [hlog, if_neg hec]
    · by_cases hec : b.exit_code = 0
      · rw [hst, if_pos hec]
        constructor
        · intro hx
          exact absurd hx (by decide)
        · intro hx
          exact absurd hec hx
      · rw [hst, if_neg hec]
        exact ⟨fun _ => hec, fun _ => rfl⟩
    · rw [hto] at hf
      exact Bool.noConfusion hf

/-- Witness for C3: a concrete run exiting with code 2 is recorded failed. -/
theorem state_transition_monotone_witness :
    (emptyState.execute "w3" ⟨[], 0, 2⟩ 5).timed_out = false ∧
    ((emptyState.execute "w3" ⟨[], 0, 2⟩ 5).state.script_states "w3" = some "failed"
      ↔ ¬ (2 : Int) = 0) :=
  ⟨by decide, (state_transition_monotone emptyState "w3" ⟨[], 0, 2⟩ 5).2.1 (by decide)⟩

/-- Claim C4: folding any insertion sequence into an empty cache through
addToCache never leaves more than 1000 entries, and the entries kept are
exactly the most recent 1000 in insertion order (after 1100 insertions, the
drop of the first 100). -/
theorem cache_bound_fifo (l : List OutputEvent) :
    (l.foldl addToCache []).length ≤ 1000 ∧
    l.foldl addToCache [] = l.drop (l.length - 1000) := by
  refine ⟨?_, foldl_addToCache_eq_drop l⟩
  rw [foldl_addToCache_eq_drop l, List.length_drop]
  omega

/-- Counterexample to claim C5: cancelling the consumer after one event while
the child is still running leaves the child terminated with the SIGTERM code
by the finally-block cleanup, not running. -/
theorem cancellation_terminates_counterexample :
    (emptyState.executeCancelled "c5" ⟨[(0, "a"), (0, "b")], 0, 0⟩ 60 1).process
        = some ⟨some (-15)⟩ ∧
    (emptyState.executeCancelled "c5" ⟨[(0, "a"), (0, "b")], 0, 0⟩ 60 1).state.processes "c5"
        = none ∧
    ¬ (emptyState.executeCancelled "c5" ⟨[(0, "a"), (0, "b")], 0, 0⟩ 60 1).process
        = some ⟨none⟩ := by
  decide

/-- Claim C5 (amended): cancelling the iteration of the consumer runs the finally
clause of execute, whose cleanup terminates a still-running child and drops
its process, fd and queue entries; the state table and cache survive, so the
identifier stays queryable through get_script_status, now recorded failed. -/
theorem cancellation_cleanup_spec (s : ExecutorState) (id : String) (b : Behavior)
    (t k : Nat) :
    (s.executeCancelled id b t k).process = some ⟨some (-15)⟩ ∧
    (s.executeCancelled id b t k).state.processes id = none ∧
    (s.executeCancelled id b t k).state.master_fds id = none ∧
    (s.executeCancelled id b t k).state.script_states id = some "failed" ∧
    ((s.executeCancelled id b t k).state.get_script_status id).isSome = true := by
  obtain ⟨f1, f2, f3, _, f5, _, _⟩ := executeCancelled_fields s id b t k
  refine ⟨f1, f2, f3, f5, ?_⟩
  simp [ExecutorState.get_script_status, f5]

/-- Counterexample to claim C6: a normal run streams its exit event to the
consumer, but the exit event is never appended to the output cache: only the
stdout chunk is cached. -/
theorem terminal_event_not_cached_counterexample :
    (emptyState.execute "c6" ⟨[(0, "hi")], 0, 0⟩ 5).events
        = [⟨EventType.stdout, "hi"⟩, exitEvent 0] ∧
    (emptyState.execute "c6" ⟨[(0, "hi")], 0, 0⟩ 5).state.output_caches "c6"
        = some [⟨EventType.stdout, "hi"⟩] ∧
    ¬ exitEvent 0 ∈
      ((emptyState.execute "c6" ⟨[(0, "hi")], 0, 0⟩ 5).state.output_caches "c6").getD [] := by
  decide

/-- Claim C6 (amended): exactly the stdout events delivered to the consumer
are mirrored into the cache as they are produced (through addToCache, in
order); the terminal error and exit events appear only in the live stream and
are never cached. -/
theorem cache_mirrors_stdout_stream (s : ExecutorState) (id : String) (b : Behavior)
    (t : Nat) :
    ((s.execute id b t).state.output_caches id).getD []
      = ((s.execute id b t).events.filter
          (fun e => decide (e.etype = EventType.stdout))).foldl addToCache [] := by
  obtain ⟨pre, hstd, hcache, _, hcase⟩ := execute_spec s id b t
  have hself : pre.filter (fun e => decide (e.etype = EventType.stdout)) = pre := by
    rw [List.filter_eq_self]
    intro a ha
    simp [hstd a ha]
  rcases hcase with ⟨_, hev, _, _, _⟩ | ⟨_, hev, _, _, _⟩
  · rw [hcache, hev, List.filter_append, hself]
    have : [timeoutErrorEvent t].filter (fun e => decide (e.etype = EventType.stdout)) = [] := by
      simp [timeoutErrorEvent]
    rw [this, List.append_nil]
  · rw [hcache, hev, List.filter_append, hself]
    have : [exitEvent b.exit_code].filter (fun e => decide (e.etype = EventType.stdout)) = [] := by
      simp [exitEvent]
    rw [this, List.append_nil]

/-- Counterexample to claim C7: after a run that exits with code 3 and is
recorded failed, get_script_status reports exit_code none, not 3, because the
cleanup protocol already removed the process entry the status reads. -/
theorem terminal_exit_code_counterexample :
    (emptyState.execute "c7" ⟨[], 0, 3⟩ 5).state.script_states "c7" = some "failed" ∧
    ((emptyState.execute "c7" ⟨[], 0, 3⟩ 5).state.get_script_status "c7").map
        ScriptStatus.exit_code = some none ∧
    ¬ ((emptyState.execute "c7" ⟨[], 0, 3⟩ 5).state.get_script_status "c7").map
        ScriptStatus.exit_code = some (some 3) := by
  decide

/-- Claim C7 (amended): get_script_status on a never-recorded identifier
returns none; after a run completes, the status reports the terminal state of
the run but its exit_code field is none, because cleanup removed the process
entry from which get_script_status reads the return code. -/
theorem get_status_spec :
    (∀ (s : ExecutorState) (id : String), s.script_states id = none →
      s.get_script_status id = none) ∧
    (∀ (s : ExecutorState) (id : String) (b : Behavior) (t : Nat),
      (s.execute id b t).timed_out = false →
        ((s.execute id b t).state.get_script_status id).map ScriptStatus.status
            = some (if b.exit_code = 0 then "completed" else "failed") ∧
        ((s.execute id b t).state.get_script_status id).map ScriptStatus.exit_code
            = some none) := by
  constructor
  · intro s id h
    simp [ExecutorState.get_script_status, h]
  · intro s id b t hf
    obtain ⟨pre, _, _, hproc, hcase⟩ := execute_spec s id b t
    rcases hcase with ⟨hto, _, _, _, _⟩ | ⟨_, _, hst, _, _⟩
    · rw [hf] at hto
      exact Bool.noConfusion hto
    · constructor <;> simp [ExecutorState.get_script_status, hst, hproc]

/-- Witness for C7: the not-found case on a fresh executor and the none exit
code after a concrete failed run. -/
theorem get_status_spec_witness :
    emptyState.get_script_status "nobody" = none ∧
    ((emptyState.execute "w7" ⟨[], 0, 3⟩ 5).state.get_script_status "w7").map
        ScriptStatus.exit_code = some none :=
  ⟨get_status_spec.1 emptyState "nobody" rfl,
    (get_status_spec.2 emptyState "w7" ⟨[], 0, 3⟩ 5 (by decide)).2⟩

/-- Claim C8: the cleanup protocol is a total function of the embedding (the
source swallows every exception on this path), running it a second time on
the already-cleaned execution changes nothing, and every run emits exactly one
terminal event, so no termination race double-emits one. -/
theorem cleanup_idempotent_single_terminal :
    (∀ (s : ExecutorState) (id : String) (p : Option Proc),
      ((s.cleanup id p).1).cleanup id (s.cleanup id p).2 = s.cleanup id p) ∧
    (∀ (s : ExecutorState) (id : String) (b : Behavior) (t : Nat),
      ((s.execute id b t).events.filter
        (fun e => decide (e.etype = EventType.error ∨ e.etype = EventType.exit))).length
          = 1) := by
  constructor
  · intro s id p
    rcases p with _ | ⟨_ | c⟩
    · simp only [ExecutorState.cleanup]
      rw [purge_idem, purge_idem]
    · simp only [ExecutorState.cleanup, Proc.terminate, Option.isNone_none, if_true,
        Option.isNone_some, Bool.false_eq_true, if_false]
      rw [purge_idem, purge_idem, purge_idem]
    · simp only [ExecutorState.cleanup, Option.isNone_some, Bool.false_eq_true, if_false]
      rw [purge_idem, purge_idem, purge_idem]
  · intro s id b t
    obtain ⟨pre, hstd, _, _, hcase⟩ := execute_spec s id b t
    have hp : pre.filter
        (fun e => decide (e.etype = EventType.error ∨ e.etype = EventType.exit)) = [] := by
      rw [List.filter_eq_nil_iff]
      intro a ha
      simp [hstd a ha]
    rcases hcase with ⟨_, hev, _, _, _⟩ | ⟨_, hev, _, _, _⟩
    · rw [hev, List.filter_append, hp]
      simp [timeoutErrorEvent]
    · rw [hev, List.filter_append, hp]
      simp [exitEvent]

/-- Claim C9: a timed-out run leaves the state-table entry at running (the
timeout branch returns before the state-update step), while its process was
terminated; every later get_script_status for the identifier reports
running. -/
theorem timeout_leaves_state_running (s : ExecutorState) (id : String) (b : Behavior)
    (t : Nat) (h : (s.execute id b t).timed_out = true) :
    (s.execute id b t).state.script_states id = some "running" ∧
    ((s.execute id b t).state.get_script_status id).map ScriptStatus.status
        = some "running" ∧
    (s.execute id b t).process = some ⟨some (-15)⟩ := by
  obtain ⟨pre, _, _, _, hcase⟩ := execute_spec s id b t
  rcases hcase with ⟨_, _, hst, _, hp⟩ | ⟨hto, _, _, _, _⟩
  · exact ⟨hst, by simp [ExecutorState.get_script_status, hst], hp⟩
  · rw [h] at hto
    exact Bool.noConfusion hto

/-- Witness for C9: a concrete run that times out waiting for EOF is still
recorded running afterwards. -/
theorem timeout_leaves_state_running_witness :
    (emptyState.execute "w9" ⟨[], 9, 0⟩ 4).timed_out = true ∧
    (emptyState.execute "w9" ⟨[], 9, 0⟩ 4).state.script_states "w9" = some "running" :=
  ⟨by decide, (timeout_leaves_state_running emptyState "w9" ⟨[], 9, 0⟩ 4 (by decide)).1⟩

/-- Claim C10: kill_process drops exactly the process, fd and queue entries of
the identifier; the state table and output caches are untouched, so the status
and cached output reported by get_script_status are unchanged, and killing an
unknown identifier is a no-op. -/
theorem kill_process_frame (s : ExecutorState) (id : String) :
    (s.kill_process id).script_states = s.script_states ∧
    (s.kill_process id).output_caches = s.output_caches ∧
    (s.kill_process id).processes id = none ∧
    (s.kill_process id).master_fds id = none ∧
    (s.kill_process id).output_queues id = none ∧
    ((s.kill_process id).get_script_status id).map ScriptStatus.status
        = (s.get_script_status id).map ScriptStatus.status ∧
    ((s.kill_process id).get_script_status id).map ScriptStatus.cached_output
        = (s.get_script_status id).map ScriptStatus.cached_output ∧
    (s.processes id = none → s.master_fds id = none → s.output_queues id = none →
      s.kill_process id = s) := by
  refine ⟨rfl, rfl, purge_at_key s.processes id, purge_at_key s.master_fds id,
    purge_at_key s.output_queues id, ?_, ?_, ?_⟩
  · cases hs : s.script_states id <;>
      simp [ExecutorState.get_script_status, ExecutorState.kill_process, hs]
  · cases hs : s.script_states id <;>
      simp [ExecutorState.get_script_status, ExecutorState.kill_process, hs]
  · intro h1 h2 h3
    simp [ExecutorState.kill_process, h1, h2, h3]

/-- Witness for C10: killing a never-started identifier on a fresh executor
changes nothing. -/
theorem kill_process_frame_witness : emptyState.kill_process "w10" = emptyState :=
  (kill_process_frame emptyState "w10").2.2.2.2.2.2.2 rfl rfl rfl

end Scriptbook
